import Mathlib

/-!
Shallow embedding of the device-authentication core of
`ProxmoxMCP-Production` (`src/core/device_auth.py` and the rate limiter of
`src/core/security_middleware.py`), with theorems settling the claims of
the specification.

Modelling conventions:
* Timestamps (ISO strings produced by `datetime.now().isoformat()` and
  epoch floats produced by `time.time()`) are modelled as `Int` seconds.
  Each operation reads the clock once (`now : Int`).
* A stored `expires_at` string is modelled as `Option Int`: `none` stands
  for a missing, empty or unparseable timestamp (for which
  `datetime.fromisoformat` raises and `_is_expired` returns `True`).
* Python `dict`s persisted as JSON documents are modelled as association
  lists `Store α := List (String × α)` preserving insertion order (Python
  dict iteration order), with `lookupKey` / `setKey` / `eraseKey`
  mirroring `d[k]`, `d[k] = v` and `del d[k]`.
* `_load_json_file` swallows read errors and returns `{}`; an operation
  that reads a document therefore takes the document's on-disk content
  together with a `readOk : Bool` flag, and loads `[]` when the read
  fails.  The document value returned by an operation is the on-disk
  content after the operation (unchanged when no save happened).
* `secrets.token_urlsafe` and `hashlib.sha256` are not re-implemented:
  the generated plaintext token and its hash enter the model as opaque
  `String` inputs, and `validate_token` receives the already-computed
  `token_hash = sha256(token)` (source line 313 computes it from the
  presented token before any state is consulted).
-/

namespace ProxmoxMCP

/-- The `DeviceStatus` enum values (`device_auth.py` lines 24-29). -/
def DeviceStatus.pending : String := "pending"


/-- `DeviceStatus.APPROVED.value`. -/
def DeviceStatus.approved : String := "approved"


/-- `DeviceStatus.REVOKED.value`. -/
def DeviceStatus.revoked : String := "revoked"


/-- `DeviceStatus.EXPIRED.value`. -/
def DeviceStatus.expired : String := "expired"


/-- `DeviceRequest` dataclass (`device_auth.py` lines 31-43). -/
structure DeviceRequest where
  device_id : String
  device_name : String
  client_info : String
  ip_address : String
  user_agent : String
  requested_at : Int
  status : String := DeviceStatus.pending
  approved_at : Option Int := none
  approved_by : String := "system"
  notes : String := ""
deriving DecidableEq, Repr


/-- `DeviceToken` dataclass (`device_auth.py` lines 45-61).  The plaintext
secret is never a field: only its hash is stored. -/
structure DeviceToken where
  device_id : String
  device_name : String
  token_hash : String
  ip_address : String
  created_at : Int
  expires_at : Option Int
  last_used_at : Option Int := none
  usage_count : Nat := 0
  status : String := DeviceStatus.approved
  permissions : List String
deriving DecidableEq, Repr


/-- The default permission list assigned in `DeviceToken.__post_init__`. -/
def defaultPermissions : List String :=
  ["execute_command", "list_vms", "vm_status", "vm_action", "node_status", "proxmox_api"]


/-- Revocation audit record written by `revoke_device`
(`device_auth.py` lines 292-297). -/
structure RevocationRecord where
  device_name : String
  token_hash : String
  revoked_at : Int
  reason : String
deriving DecidableEq, Repr


/-- A persisted JSON document: a mapping from device_id to a record,
modelled as an insertion-ordered association list (Python dict). -/
abbrev Store (α : Type) : Type := List (String × α)


/-- `k in d` on a Python dict. -/
def containsKey {α : Type} (l : Store α) (k : String) : Bool :=
  l.any (fun p => p.1 == k)


/-- `d[k]` / `d.get(k)` on a Python dict (first entry with the key). -/
def lookupKey {α : Type} (l : Store α) (k : String) : Option α :=
  (l.find? (fun p => p.1 == k)).map (·.2)


/-- `d[k] = v` on a Python dict: replace in place if the key is present,
append otherwise. -/
def setKey {α : Type} (l : Store α) (k : String) (v : α) : Store α :=
  if containsKey l k then l.map (fun p => if p.1 == k then (k, v) else p)
  else l ++ [(k, v)]


/-- `del d[k]` on a Python dict. -/
def eraseKey {α : Type} (l : Store α) (k : String) : Store α :=
  l.filter (fun p => !(p.1 == k))


/-- `_is_expired` (`device_auth.py` lines 117-123): `True` when the
timestamp fails to parse, otherwise `now > expiry_time`. -/
def is_expired (expires_at : Option Int) (now : Int) : Bool :=
  match expires_at with
  | none => true
  | some t => now > t


/-- Reading a persisted document whose on-disk content is `file`:
`_load_json_file` (`device_auth.py` lines 125-135) returns an empty
mapping on any read error, modelled by `readOk = false`. -/
def load_json_file {α : Type} (file : Store α) (readOk : Bool) : Store α :=
  if readOk then file else []


/-- Values appearing in a JSON-dict projection returned to callers. -/
inductive FieldVal : Type
  | str : String → FieldVal
  | int : Int → FieldVal
  | nat : Nat → FieldVal
  | optInt : Option Int → FieldVal
  | strList : List String → FieldVal
deriving DecidableEq, Repr


/-- The `safe_device_info` dict built on a successful validation
(`device_auth.py` lines 352-361). -/
def safe_device_info (device_id : String) (info : DeviceToken) :
    List (String × FieldVal) :=
  [("device_id", .str device_id),
   ("device_name", .str info.device_name),
   ("permissions", .strList info.permissions),
   ("ip_address", .str info.ip_address),
   ("created_at", .int info.created_at),
   ("expires_at", .optInt info.expires_at),
   ("last_used_at", .optInt info.last_used_at),
   ("usage_count", .nat info.usage_count)]


/-- The `safe_device` dict built per record by `get_approved_devices`
(`device_auth.py` lines 386-396). -/
def safe_device (device_id : String) (d : DeviceToken) :
    List (String × FieldVal) :=
  [("device_id", .str device_id),
   ("device_name", .str d.device_name),
   ("ip_address", .str d.ip_address),
   ("created_at", .int d.created_at),
   ("expires_at", .optInt d.expires_at),
   ("last_used_at", .optInt d.last_used_at),
   ("usage_count", .nat d.usage_count),
   ("status", .str d.status),
   ("permissions", .strList d.permissions)]


/-- `get_approved_devices` (`device_auth.py` lines 378-402), applied to a
successfully loaded approved-devices document. -/
def get_approved_devices (approved_devices : Store DeviceToken) :
    List (List (String × FieldVal)) :=
  approved_devices.map (fun p => safe_device p.1 p.2)


/-- `SecurityMiddleware._check_rate_limit`
(`security_middleware.py` lines 66-86): sliding-window limiter over the
in-memory `rate_limits` map.  Returns the decision and the updated map. -/
def SecurityMiddleware.check_rate_limit (storage : Store (List Int))
    (key : String) (now : Int) (max_requests : Nat) (window_seconds : Int) :
    Bool × Store (List Int) :=
  let window_start := now - window_seconds
  let times := (lookupKey storage key).getD []
  let pruned := times.filter (fun t => t > window_start)
  if max_requests ≤ pruned.length then (false, setKey storage key pruned)
  else (true, setKey storage key (pruned ++ [now]))


/-- `DeviceAuthManager._check_rate_limit`
(`device_auth.py` lines 146-166): identical discipline with the window
given in minutes (`window_start = now - window_minutes * 60`). -/
def DeviceAuthManager.check_rate_limit (storage : Store (List Int))
    (ip_address : String) (now : Int) (max_requests : Nat)
    (window_minutes : Int) : Bool × Store (List Int) :=
  let window_start := now - window_minutes * 60
  let times := (lookupKey storage ip_address).getD []
  let pruned := times.filter (fun t => t > window_start)
  if max_requests ≤ pruned.length then (false, setKey storage ip_address pruned)
  else (true, setKey storage ip_address (pruned ++ [now]))


/-- `request_device_registration` (`device_auth.py` lines 185-220).
`device_id` is the freshly generated `uuid4` value.  Returns the result
triple, the pending-requests document after the operation and the updated
rate-limit storage. -/
def request_device_registration (pendingFile : Store DeviceRequest)
    (pendingOk : Bool) (rate : Store (List Int))
    (device_name client_info ip_address user_agent : String)
    (device_id : String) (now : Int) :
    (Bool × String × Option String) × Store DeviceRequest × Store (List Int) :=
  let rateRes := DeviceAuthManager.check_rate_limit rate ip_address now 5 15
  if !rateRes.1 then
    ((false, "Rate limit exceeded. Please try again later.", none),
      pendingFile, rateRes.2)
  else
    let pending_requests := load_json_file pendingFile pendingOk
    let device_request : DeviceRequest :=
      { device_id := device_id, device_name := device_name,
        client_info := client_info, ip_address := ip_address,
        user_agent := user_agent, requested_at := now }
    ((true, "Device registration requested. Waiting for admin approval.",
        some device_id),
      setKey pending_requests device_id device_request, rateRes.2)


/-- `approve_device` (`device_auth.py` lines 222-274).  `token` is the
freshly generated plaintext secret and `token_hash` its SHA-256 digest
(both produced before any state is touched); `expiry_days = none` models
the Python default `None`.  Returns the result triple, the
pending-requests document and the approved-devices document after the
operation. -/
def approve_device (pendingFile : Store DeviceRequest) (pendingOk : Bool)
    (approvedFile : Store DeviceToken) (approvedOk : Bool)
    (device_id : String) (expiry_days : Option Int) (now : Int)
    (token token_hash : String) :
    (Bool × String × Option String) × Store DeviceRequest × Store DeviceToken :=
  let d0 : Int := expiry_days.getD 30
  let d : Int := if d0 > 365 then 365 else d0
  let pending_requests := load_json_file pendingFile pendingOk
  match lookupKey pending_requests device_id with
  | none => ((false, "Device request not found", none), pendingFile, approvedFile)
  | some device_request =>
    let expires_at : Int := now + d * 86400
    let device_token : DeviceToken :=
      { device_id := device_id, device_name := device_request.device_name,
        token_hash := token_hash, ip_address := device_request.ip_address,
        created_at := now, expires_at := some expires_at,
        permissions := defaultPermissions }
    let approved_devices := load_json_file approvedFile approvedOk
    ((true, "Device approved successfully", some token),
      eraseKey pending_requests device_id,
      setKey approved_devices device_id device_token)


/-- `revoke_device` (`device_auth.py` lines 276-308). -/
def revoke_device (approvedFile : Store DeviceToken) (approvedOk : Bool)
    (revokedFile : Store RevocationRecord) (revokedOk : Bool)
    (device_id : String) (now : Int) (reason : String) :
    (Bool × String) × Store DeviceToken × Store RevocationRecord :=
  let approved_devices := load_json_file approvedFile approvedOk
  match lookupKey approved_devices device_id with
  | none => ((false, "Device not found"), approvedFile, revokedFile)
  | some device_token =>
    let device_token2 := { device_token with status := DeviceStatus.revoked }
    let entry : RevocationRecord :=
      { device_name := device_token.device_name,
        token_hash := device_token.token_hash,
        revoked_at := now, reason := reason }
    let revoked_tokens := load_json_file revokedFile revokedOk
    ((true, "Device access revoked successfully"),
      setKey approved_devices device_id device_token2,
      setKey revoked_tokens device_id entry)


/-- `validate_token` (`device_auth.py` lines 310-367), applied to the
already-computed `token_hash` of the presented secret.  Returns
`(is_valid, device_info, message)` and the approved-devices document
after the operation. -/
def validate_token (approvedFile : Store DeviceToken) (approvedOk : Bool)
    (token_hash : String) (now : Int) :
    (Bool × Option (List (String × FieldVal)) × String) × Store DeviceToken :=
  let approved_devices := load_json_file approvedFile approvedOk
  match approved_devices.find? (fun p => p.2.token_hash == token_hash) with
  | none => ((false, none, "Invalid token"), approvedFile)
  | some (device_id, device_info) =>
    if device_info.status == DeviceStatus.revoked then
      ((false, none, "Device access has been revoked"), approvedFile)
    else if is_expired device_info.expires_at now then
      let device_info2 := { device_info with status := DeviceStatus.expired }
      ((false, none, "Token has expired"),
        setKey approved_devices device_id device_info2)
    else
      let device_info2 :=
        { device_info with last_used_at := some now,
                           usage_count := device_info.usage_count + 1 }
      ((true, some (safe_device_info device_id device_info2), "Token valid"),
        setKey approved_devices device_id device_info2)


/-- `cleanup_expired_tokens` (`device_auth.py` lines 404-420): marks every
record whose `expires_at` has passed (regardless of its current status)
as expired and saves once if any changed. -/
def cleanup_expired_tokens (approvedFile : Store DeviceToken)
    (approvedOk : Bool) (now : Int) : Store DeviceToken :=
  let approved_devices := load_json_file approvedFile approvedOk
  if approved_devices.any (fun p => is_expired p.2.expires_at now) then
    approved_devices.map (fun p =>
      if is_expired p.2.expires_at now then
        (p.1, { p.2 with status := DeviceStatus.expired })
      else p)
  else approvedFile


/-- The in-memory authority state: the three persisted documents plus the
engine's rate-limit storage (`DeviceAuthManager.__init__`). -/
structure AuthState where
  pending : Store DeviceRequest
  approved : Store DeviceToken
  revoked : Store RevocationRecord
  rate : Store (List Int)
deriving DecidableEq, Repr


/-- One engine operation, carrying the values its Python counterpart
obtains from the environment (fresh uuid, fresh token and hash, clock). -/
inductive Op : Type
  | register (device_name client_info ip_address user_agent device_id : String)
      (now : Int)
  | approve (device_id : String) (expiry_days : Option Int) (now : Int)
      (token token_hash : String)
  | revoke (device_id : String) (now : Int) (reason : String)
  | validate (token_hash : String) (now : Int)
  | cleanup (now : Int)
deriving DecidableEq, Repr


/-- Effect of one operation on the persisted state, with every document
read succeeding (the non-faulting semantics). -/
def step (s : AuthState) : Op → AuthState
  | .register dn ci ip ua id now =>
      let r := request_device_registration s.pending true s.rate dn ci ip ua id now
      { s with pending := r.2.1, rate := r.2.2 }
  | .approve id days now tok h =>
      let r := approve_device s.pending true s.approved true id days now tok h
      { s with pending := r.2.1, approved := r.2.2 }
  | .revoke id now reason =>
      let r := revoke_device s.approved true s.revoked true id now reason
      { s with approved := r.2.1, revoked := r.2.2 }
  | .validate h now =>
      { s with approved := (validate_token s.approved true h now).2 }
  | .cleanup now =>
      { s with approved := cleanup_expired_tokens s.approved true now }


/-- Run a sequence of operations. -/
def run (s : AuthState) : List Op → AuthState
  | [] => s
  | op :: rest => run (step s op) rest


/-- The in-place-update half of `setKey`, split out for clean induction. -/
def replaceKey {α : Type} (l : Store α) (k : String) (v : α) : Store α :=
  l.map (fun p => if p.1 == k then (k, v) else p)


/-- Keys of a store are pairwise distinct — the Python-dict invariant. -/
def keysNodup {α : Type} (l : Store α) : Prop :=
  (l.map Prod.fst).Nodup


/-- The success condition as the spec words it (for comparison with the
code): some record has a matching hash, status `approved`, and
`expires_at` strictly later than now. -/
def specWordsValidCondition (approved : Store DeviceToken) (h : String)
    (now : Int) : Bool :=
  approved.any (fun p =>
    p.2.token_hash == h && p.2.status == DeviceStatus.approved &&
      (match p.2.expires_at with | some e => now < e | none => false))


/-- A stored record with status `pending` and `expires_at` equal to the
current time. -/
def c1Record : DeviceToken :=
  { device_id := "d1", device_name := "laptop", token_hash := "h1",
    ip_address := "10.0.0.2", created_at := 0, expires_at := some 0,
    status := DeviceStatus.pending, permissions := defaultPermissions }


/-- A stored approved record expiring at time `100`. -/
def c3Record : DeviceToken :=
  { device_id := "d1", device_name := "laptop", token_hash := "h1",
    ip_address := "10.0.0.2", created_at := 0, expires_at := some 100,
    permissions := defaultPermissions }


/-- An approved record with token hash `h1` expiring at time `100`. -/
def c4Record : DeviceToken :=
  { device_id := "d1", device_name := "laptop", token_hash := "h1",
    ip_address := "10.0.0.2", created_at := 0, expires_at := some 100,
    permissions := defaultPermissions }


/-- Initial state holding only that approved device. -/
def c4Start : AuthState :=
  { pending := [], approved := [("d1", c4Record)], revoked := [], rate := [] }


/-- State after `revoke_device "d1"` at time `50`. -/
def c4AfterRevoke : AuthState := step c4Start (.revoke "d1" 50 "Manual revocation")


/-- State after the startup sweep `cleanup_expired_tokens` at time `200`. -/
def c4AfterCleanup : AuthState := step c4AfterRevoke (.cleanup 200)


/-- A pending registration request for device `d1`. -/
def c6Request : DeviceRequest :=
  { device_id := "d1", device_name := "laptop", client_info := "ci",
    ip_address := "10.0.0.2", user_agent := "ua", requested_at := 0 }


/-- The token record `approve` creates from `c6Request` with
`expiry_days = -1` at time `0`. -/
def c6Token : DeviceToken :=
  { device_id := "d1", device_name := "laptop", token_hash := "g1",
    ip_address := "10.0.0.2", created_at := 0, expires_at := some (-86400),
    permissions := defaultPermissions }


/-- A previously persisted pending registration request. -/
def c9OldRequest : DeviceRequest :=
  { device_id := "old-id", device_name := "old-dev", client_info := "ci",
    ip_address := "10.0.0.3", user_agent := "ua", requested_at := 0 }


/-- A revoked record whose `expires_at` never parses. -/
def c10Record : DeviceToken :=
  { device_id := "d1", device_name := "laptop", token_hash := "h1",
    ip_address := "10.0.0.2", created_at := 0, expires_at := none,
    status := DeviceStatus.revoked, permissions := defaultPermissions }


/-- A non-revoked record whose `expires_at` never parses. -/
def c10Record2 : DeviceToken :=
  { device_id := "d2", device_name := "laptop", token_hash := "h2",
    ip_address := "10.0.0.2", created_at := 0, expires_at := none,
    permissions := defaultPermissions }


/-- The status-marking `cleanup_expired_tokens` applies to a single
record: mark it expired when its `expires_at` has passed, else keep it. -/
def markExpired (now : Int) (v : DeviceToken) : DeviceToken :=
  if is_expired v.expires_at now then { v with status := DeviceStatus.expired }
  else v


/-- `now` when `op` is a `validate` call that succeeds in state `s` and
whose hash scan finds device `id`; `none` otherwise. -/
def validationTimeOf (s : AuthState) (id : String) : Op → Option Int
  | .validate th now =>
      if (validate_token s.approved true th now).1.1 = true ∧
         (s.approved.find? (fun p => p.2.token_hash == th)).map Prod.fst =
           some id
      then some now else none
  | _ => none


/-- Number of successful validations of device `id` along a trace. -/
def successfulValidations (s : AuthState) (id : String) : List Op → Nat
  | [] => 0
  | op :: rest =>
      (match validationTimeOf s id op with | some _ => 1 | none => 0) +
        successfulValidations (step s op) id rest


/-- Time of the most recent successful validation of device `id` along a
trace, starting from `acc` (the record's prior `last_used_at`). -/
def lastValidationTime (s : AuthState) (id : String) (acc : Option Int) :
    List Op → Option Int
  | [] => acc
  | op :: rest =>
      lastValidationTime (step s op) id
        (match validationTimeOf s id op with
         | some t => some t | none => acc) rest


/-- `true` unless `op` is a registration generating exactly the id under
study (uuid4-generated ids never collide with an existing device). -/
def registerAvoids (id : String) : Op → Bool
  | .register _ _ _ _ d _ => d != id
  | _ => true


/-- An approved record with token hash `h1`, expiring at time `1000`. -/
def c8Record : DeviceToken :=
  { device_id := "d1", device_name := "laptop", token_hash := "h1",
    ip_address := "10.0.0.2", created_at := 0, expires_at := some 1000,
    permissions := defaultPermissions }


/-- Initial state for the C8 witness. -/
def c8Start : AuthState :=
  { pending := [], approved := [("d1", c8Record)], revoked := [], rate := [] }


/-- Two successful validations, a revocation, then a failing validation. -/
def c8Ops : List Op :=
  [.validate "h1" 10, .validate "h1" 20, .revoke "d1" 30 "manual",
   .validate "h1" 40]


/-! ## Theorems -/

theorem setKey_eq_replaceKey {α : Type} {l : Store α} {k : String} {v : α}
    (h : containsKey l k = true) : setKey l k v = replaceKey l k v := by
  simp [setKey, replaceKey, h]


theorem setKey_eq_append {α : Type} {l : Store α} {k : String} {v : α}
    (h : containsKey l k = false) : setKey l k v = l ++ [(k, v)] := by
  simp [setKey, h]


theorem containsKey_cons {α : Type} (p : String × α) (t : Store α)
    (k : String) :
    containsKey (p :: t) k = (p.1 == k || containsKey t k) := by
  simp [containsKey]


theorem lookupKey_cons {α : Type} (p : String × α) (t : Store α)
    (k : String) :
    lookupKey (p :: t) k = if p.1 == k then some p.2 else lookupKey t k := by
  by_cases h : p.1 == k <;> simp [lookupKey, List.find?_cons, h]


theorem lookupKey_eq_none_of_containsKey_eq_false {α : Type} {l : Store α}
    {k : String} (h : containsKey l k = false) : lookupKey l k = none := by
  induction l with
  | nil => rfl
  | cons p t ih =>
    rw [containsKey_cons, Bool.or_eq_false_iff] at h
    rw [lookupKey_cons, if_neg (by simp [h.1]), ih h.2]


theorem containsKey_of_lookupKey_eq_some {α : Type} {l : Store α}
    {k : String} {v : α} (h : lookupKey l k = some v) :
    containsKey l k = true := by
  by_contra hc
  rw [lookupKey_eq_none_of_containsKey_eq_false
    (Bool.eq_false_iff.mpr hc)] at h
  exact Option.noConfusion h


theorem lookupKey_replaceKey_self {α : Type} {l : Store α} {k : String}
    {v : α} (h : containsKey l k = true) :
    lookupKey (replaceKey l k v) k = some v := by
  induction l with
  | nil => simp [containsKey] at h
  | cons p t ih =>
    rw [containsKey_cons, Bool.or_eq_true] at h
    by_cases hp : p.1 == k
    · have hpk : p.1 = k := by simpa using hp
      simp [replaceKey, lookupKey_cons, hp, hpk]
    · have ht : containsKey t k = true := h.resolve_left (by simp [hp])
      simp only [replaceKey, List.map_cons, if_neg hp] at *
      rw [lookupKey_cons, if_neg hp]
      exact ih ht


theorem lookupKey_setKey_self {α : Type} (l : Store α) (k : String) (v : α) :
    lookupKey (setKey l k v) k = some v := by
  by_cases hc : containsKey l k
  · rw [setKey_eq_replaceKey hc]
    exact lookupKey_replaceKey_self hc
  · rw [setKey_eq_append (Bool.eq_false_iff.mpr hc)]
    have hn := lookupKey_eq_none_of_containsKey_eq_false
      (Bool.eq_false_iff.mpr hc)
    unfold lookupKey at hn ⊢
    rw [List.find?_append]
    rcases Option.map_eq_none'.mp hn with hfind
    simp [hfind, List.find?]


theorem lookupKey_replaceKey_ne {α : Type} (l : Store α) (k k' : String)
    (v : α) (h : k' ≠ k) :
    lookupKey (replaceKey l k v) k' = lookupKey l k' := by
  induction l with
  | nil => rfl
  | cons p t ih =>
    by_cases hp : p.1 == k
    · have hpk : p.1 = k := by simpa using hp
      have h1 : ¬((k : String) == k') := by
        simp only [beq_iff_eq]
        exact fun e => h e.symm
      have h2 : ¬(p.1 == k') := by
        rw [hpk]; exact h1
      simp only [replaceKey, List.map_cons, if_pos hp]
      rw [lookupKey_cons, lookupKey_cons, if_neg h1, if_neg h2]
      exact ih
    · simp only [replaceKey, List.map_cons, if_neg hp]
      rw [lookupKey_cons, lookupKey_cons]
      by_cases hp' : p.1 == k'
      · simp [hp']
      · rw [if_neg hp', if_neg hp']
        exact ih


theorem lookupKey_setKey_ne {α : Type} (l : Store α) (k k' : String) (v : α)
    (h : k' ≠ k) : lookupKey (setKey l k v) k' = lookupKey l k' := by
  by_cases hc : containsKey l k
  · rw [setKey_eq_replaceKey hc]
    exact lookupKey_replaceKey_ne l k k' v h
  · rw [setKey_eq_append (Bool.eq_false_iff.mpr hc)]
    unfold lookupKey
    rw [List.find?_append]
    have hne : ¬((k : String) == k') := by
      simp only [beq_iff_eq]
      exact fun e => h e.symm
    match hfind : List.find? (fun p => p.1 == k') l with
    | some q => simp [hfind]
    | none => simp [hfind, List.find?, hne]


theorem containsKey_replaceKey_ne {α : Type} (l : Store α) (k k' : String)
    (v : α) (h : k' ≠ k) :
    containsKey (replaceKey l k v) k' = containsKey l k' := by
  induction l with
  | nil => rfl
  | cons p t ih =>
    by_cases hp : p.1 == k
    · have hpk : p.1 = k := by simpa using hp
      have h1 : ¬((k : String) == k') := by
        simp only [beq_iff_eq]; exact fun e => h e.symm
      simp only [replaceKey, List.map_cons, if_pos hp] at *
      rw [containsKey_cons, containsKey_cons, hpk]
      simp only [ih]
    · simp only [replaceKey, List.map_cons, if_neg hp] at *
      rw [containsKey_cons, containsKey_cons, ih]


theorem containsKey_setKey_ne {α : Type} (l : Store α) (k k' : String)
    (v : α) (h : k' ≠ k) :
    containsKey (setKey l k v) k' = containsKey l k' := by
  by_cases hc : containsKey l k
  · rw [setKey_eq_replaceKey hc]
    exact containsKey_replaceKey_ne l k k' v h
  · rw [setKey_eq_append (Bool.eq_false_iff.mpr hc)]
    simp only [containsKey, List.any_append, List.any_cons, List.any_nil]
    have hne : ¬((k : String) == k') := by
      simp only [beq_iff_eq]; exact fun e => h e.symm
    simp [hne]


theorem eraseKey_cons {α : Type} (p : String × α) (t : Store α)
    (k : String) :
    eraseKey (p :: t) k =
      if p.1 == k then eraseKey t k else p :: eraseKey t k := by
  by_cases hp : p.1 == k <;> simp [eraseKey, List.filter_cons, hp]


theorem containsKey_eraseKey_self {α : Type} (l : Store α) (k : String) :
    containsKey (eraseKey l k) k = false := by
  induction l with
  | nil => rfl
  | cons p t ih =>
    rw [eraseKey_cons]
    by_cases hp : p.1 == k
    · rw [if_pos hp]; exact ih
    · rw [if_neg hp, containsKey_cons, ih]
      simp [hp]


theorem containsKey_eraseKey_ne {α : Type} (l : Store α) (k k' : String)
    (h : k' ≠ k) : containsKey (eraseKey l k) k' = containsKey l k' := by
  induction l with
  | nil => rfl
  | cons p t ih =>
    rw [eraseKey_cons]
    by_cases hp : p.1 == k
    · have hpk : p.1 = k := by simpa using hp
      have h2 : ¬(p.1 == k') := by
        rw [hpk]; simp only [beq_iff_eq]; exact fun e => h e.symm
      rw [if_pos hp, containsKey_cons, ih]
      simp [h2]
    · rw [if_neg hp, containsKey_cons, containsKey_cons, ih]


theorem keys_replaceKey {α : Type} (l : Store α) (k : String) (v : α) :
    (replaceKey l k v).map Prod.fst = l.map Prod.fst := by
  induction l with
  | nil => rfl
  | cons p t ih =>
    by_cases hp : p.1 == k
    · have hpk : p.1 = k := by simpa using hp
      simp only [replaceKey, List.map_cons, if_pos hp] at *
      rw [ih, hpk]
    · simp only [replaceKey, List.map_cons, if_neg hp] at *
      rw [ih]


theorem not_mem_keys_of_containsKey_eq_false {α : Type} {l : Store α}
    {k : String} (h : containsKey l k = false) : k ∉ l.map Prod.fst := by
  intro hk
  rcases List.mem_map.mp hk with ⟨p, hp, hpk⟩
  have : containsKey l k = true := by
    simp only [containsKey, List.any_eq_true]
    exact ⟨p, hp, by simp [hpk]⟩
  rw [h] at this
  exact Bool.noConfusion this


theorem keysNodup_setKey {α : Type} {l : Store α} (k : String) (v : α)
    (h : keysNodup l) : keysNodup (setKey l k v) := by
  by_cases hc : containsKey l k
  · rw [setKey_eq_replaceKey hc]
    unfold keysNodup
    rw [keys_replaceKey]
    exact h
  · rw [setKey_eq_append (Bool.eq_false_iff.mpr hc)]
    unfold keysNodup at *
    rw [List.map_append]
    simp only [List.map_cons, List.map_nil]
    rw [List.nodup_append]
    refine ⟨h, List.nodup_singleton k, ?_⟩
    intro a ha hb
    rw [List.mem_singleton] at hb
    subst hb
    exact not_mem_keys_of_containsKey_eq_false
      (Bool.eq_false_iff.mpr hc) ha


theorem keysNodup_eraseKey {α : Type} {l : Store α} (k : String)
    (h : keysNodup l) : keysNodup (eraseKey l k) := by
  unfold keysNodup at *
  have hsub : (eraseKey l k).map Prod.fst |>.Sublist (l.map Prod.fst) :=
    List.Sublist.map Prod.fst (List.filter_sublist l)
  exact List.Nodup.sublist hsub h


theorem lookupKey_of_mem_keysNodup {α : Type} {l : Store α} {k : String}
    {v : α} (hnd : keysNodup l) (hm : (k, v) ∈ l) :
    lookupKey l k = some v := by
  induction l with
  | nil => exact absurd hm (List.not_mem_nil _)
  | cons p t ih =>
    rcases List.mem_cons.mp hm with he | ht
    · rw [← he, lookupKey_cons, if_pos (by simp)]
    · have hpk : p.1 ≠ k := by
        intro he
        unfold keysNodup at hnd
        rw [List.map_cons, List.nodup_cons] at hnd
        exact hnd.1 (he ▸ List.mem_map.mpr ⟨(k, v), ht, rfl⟩)
      rw [lookupKey_cons, if_neg (by simp [hpk])]
      refine ih ?_ ht
      unfold keysNodup at hnd ⊢
      rw [List.map_cons, List.nodup_cons] at hnd
      exact hnd.2


/-- Replacing the entry found by a token-hash scan with an entry carrying
the same hash makes the scan find the replacement. -/
theorem find?_hash_setKey {l : Store DeviceToken} {h id : String}
    {r r' : DeviceToken}
    (hfind : l.find? (fun p => p.2.token_hash == h) = some (id, r))
    (hh : r'.token_hash = r.token_hash) :
    (setKey l id r').find? (fun p => p.2.token_hash == h) = some (id, r') := by
  have hmem : (id, r) ∈ l := List.mem_of_find?_eq_some hfind
  have hc : containsKey l id = true := by
    simp only [containsKey, List.any_eq_true]
    exact ⟨(id, r), hmem, by simp⟩
  have hpred : r.token_hash == h := by
    have := List.find?_some hfind
    simpa using this
  have hpred' : (r'.token_hash == h) = true := by
    rw [hh]; exact hpred
  rw [setKey_eq_replaceKey hc]
  clear hmem hc
  induction l with
  | nil => exact Option.noConfusion hfind
  | cons p t ih =>
    by_cases hp : p.1 == id
    · simp only [replaceKey, List.map_cons, if_pos hp]
      rw [List.find?_cons, hpred']
    · simp only [replaceKey, List.map_cons, if_neg hp]
      rw [List.find?_cons] at hfind ⊢
      by_cases hq : p.2.token_hash == h
      · rw [hq] at hfind
        simp only at hfind
        rw [Option.some_inj] at hfind
        exact absurd (congrArg Prod.fst hfind) (by simpa using hp)
      · rw [Bool.eq_false_iff.mpr hq] at hfind ⊢
        simp only at hfind ⊢
        exact ih hfind


theorem replaceKey_idem {α : Type} (l : Store α) (k : String) (v : α) :
    replaceKey (replaceKey l k v) k v = replaceKey l k v := by
  unfold replaceKey
  rw [List.map_map]
  apply List.map_congr_left
  intro p _
  by_cases hp : p.1 == k <;> simp [Function.comp, hp]


theorem setKey_setKey_same {α : Type} (l : Store α) (k : String) (v : α) :
    setKey (setKey l k v) k v = setKey l k v := by
  have hc2 : containsKey (setKey l k v) k = true :=
    containsKey_of_lookupKey_eq_some (lookupKey_setKey_self l k v)
  rw [setKey_eq_replaceKey hc2]
  by_cases hc : containsKey l k
  · rw [setKey_eq_replaceKey hc, replaceKey_idem]
  · rw [setKey_eq_append (Bool.eq_false_iff.mpr hc)]
    unfold replaceKey
    rw [List.map_append]
    congr 1
    · conv_rhs => rw [← List.map_id l]
      apply List.map_congr_left
      intro p hp
      have hnk : ¬(p.1 == k) := by
        intro hpk
        have : containsKey l k = true := by
          simp only [containsKey, List.any_eq_true]
          exact ⟨p, hp, hpk⟩
        exact absurd this (by simpa using hc)
      simp [hnk]
    · simp


/-- C1 counterexample: with a single stored record whose `token_hash`
matches, whose status is `pending` (not `approved`) and whose
`expires_at` equals the current time (not strictly later), `validate`
returns success, although the claim's condition (status approved and
expires_at strictly later than now) demands failure. -/
theorem validate_claimC1_counterexample :
    (validate_token [("d1", c1Record)] true "h1" 0).1.1 = true ∧
    specWordsValidCondition [("d1", c1Record)] "h1" 0 = false := by
  decide


/-- C1 (amended): assuming the stored token hashes are pairwise distinct
(the spec's uniqueness invariant), `validate` succeeds if and only if
some stored record has `token_hash` equal to the presented hash, status
different from `revoked`, and an `expires_at` that parses and has not
passed; in all other cases it fails. -/
theorem validate_success_iff (approved : Store DeviceToken) (h : String)
    (now : Int)
    (hnd : (approved.map (fun p => p.2.token_hash)).Nodup) :
    (validate_token approved true h now).1.1 = true ↔
      ∃ p ∈ approved, p.2.token_hash = h ∧
        p.2.status ≠ DeviceStatus.revoked ∧
        is_expired p.2.expires_at now = false := by
  constructor
  · intro hs
    unfold validate_token load_json_file at hs
    simp only [if_true] at hs
    cases hfind : approved.find? (fun p => p.2.token_hash == h) with
    | none => rw [hfind] at hs; simp at hs
    | some q =>
      rw [hfind] at hs
      obtain ⟨id, r⟩ := q
      by_cases hrev : r.status == DeviceStatus.revoked
      · simp [hrev] at hs
      · by_cases hexp : is_expired r.expires_at now
        · simp [hrev, hexp] at hs
        · refine ⟨(id, r), List.mem_of_find?_eq_some hfind, ?_, ?_, ?_⟩
          · simpa using List.find?_some hfind
          · simpa using hrev
          · simpa using hexp
  · rintro ⟨p, hmem, hhash, hstat, hexp⟩
    unfold validate_token load_json_file
    simp only [if_true]
    cases hfind : approved.find? (fun q => q.2.token_hash == h) with
    | none =>
      exfalso
      have := List.find?_eq_none.mp hfind p hmem
      simp [hhash] at this
    | some q =>
      have hqmem : q ∈ approved := List.mem_of_find?_eq_some hfind
      have hqhash : q.2.token_hash = h := by
        simpa using List.find?_some hfind
      have hpq : p = q :=
        List.inj_on_of_nodup_map hnd hmem hqmem (by rw [hhash, hqhash])
      obtain ⟨id, r⟩ := q
      rw [hpq] at hstat hexp
      have hrev : ¬(r.status == DeviceStatus.revoked) := by simpa using hstat
      simp [hrev, hexp]


/-- Witness for `validate_success_iff` at a concrete store: one record
with hash `h1` expiring at time `0`, checked at time `-1`. -/
theorem validate_success_iff_witness :
    ((([("d1", c1Record)] : Store DeviceToken).map
        (fun p => p.2.token_hash)).Nodup) ∧
    ((validate_token [("d1", c1Record)] true "h1" (-1)).1.1 = true ↔
      ∃ p ∈ ([("d1", c1Record)] : Store DeviceToken), p.2.token_hash = "h1" ∧
        p.2.status ≠ DeviceStatus.revoked ∧
        is_expired p.2.expires_at (-1) = false) :=
  ⟨by decide, validate_success_iff [("d1", c1Record)] "h1" (-1) (by decide)⟩


/-- C2: the device-info projection returned by a successful `validate`
and every record returned by `get_approved_devices` contain no
`token_hash` field; both projections are unchanged when the record's
`token_hash` is replaced by anything else (no hash information flows into
them); and the documents persisted by `approve` do not depend on the
plaintext secret (only its hash is stored — the `DeviceToken` record has
no plaintext field at all). -/
theorem projections_sanitized (device_id : String) (info : DeviceToken)
    (x : String) (approved : Store DeviceToken) :
    ("token_hash" ∉ (safe_device_info device_id info).map Prod.fst) ∧
    ("token_hash" ∉ (safe_device device_id info).map Prod.fst) ∧
    safe_device_info device_id { info with token_hash := x } =
      safe_device_info device_id info ∧
    safe_device device_id { info with token_hash := x } =
      safe_device device_id info ∧
    ((get_approved_devices approved).all
      (fun projRecord =>
        !((projRecord.map Prod.fst).contains "token_hash"))) = true ∧
    (∀ (pendingFile : Store DeviceRequest) (pendingOk : Bool)
        (approvedFile : Store DeviceToken) (approvedOk : Bool)
        (id : String) (days : Option Int) (now : Int) (tok tok' h : String),
      (approve_device pendingFile pendingOk approvedFile approvedOk
          id days now tok h).2 =
        (approve_device pendingFile pendingOk approvedFile approvedOk
          id days now tok' h).2) := by
  refine ⟨?_, ?_, rfl, rfl, ?_, ?_⟩
  · simp [safe_device_info]
  · simp [safe_device]
  · rw [List.all_eq_true]
    intro projRecord hr
    rcases List.mem_map.mp hr with ⟨p, _, hp⟩
    rw [← hp]
    simp [safe_device, List.contains]
  · intro pendingFile pendingOk approvedFile approvedOk id days now tok tok' h
    unfold approve_device
    cases hlk : lookupKey (load_json_file pendingFile pendingOk) id <;>
      simp [hlk]


/-- C3: for a token whose record is approved but whose `expires_at` lies
in the past, `validate` fails with the expired message and persists the
record with status `expired`; a second `validate` at any later time
observes the status already recorded as `expired`, returns the same
failure, and leaves the state unchanged. -/
theorem validate_expired_transition (A : Store DeviceToken) (h id : String)
    (r : DeviceToken) (e now now2 : Int)
    (hfind : A.find? (fun p => p.2.token_hash == h) = some (id, r))
    (hst : r.status = DeviceStatus.approved)
    (he : r.expires_at = some e) (h1 : e < now) (h2 : now ≤ now2) :
    validate_token A true h now =
      ((false, none, "Token has expired"),
        setKey A id { r with status := DeviceStatus.expired }) ∧
    lookupKey (setKey A id { r with status := DeviceStatus.expired }) id =
      some { r with status := DeviceStatus.expired } ∧
    validate_token (setKey A id { r with status := DeviceStatus.expired })
        true h now2 =
      ((false, none, "Token has expired"),
        setKey A id { r with status := DeviceStatus.expired }) := by
  have hrev : (r.status == DeviceStatus.revoked) = false := by
    rw [hst]; decide
  have hexp : is_expired r.expires_at now = true := by
    rw [he]
    show decide (now > e) = true
    simp only [decide_eq_true_eq]
    omega
  refine ⟨?_, lookupKey_setKey_self A id _, ?_⟩
  · unfold validate_token load_json_file
    simp only [if_true]
    rw [hfind]
    simp [hrev, hexp]
  · have hfind2 : (setKey A id { r with status := DeviceStatus.expired }).find?
        (fun p => p.2.token_hash == h) =
        some (id, { r with status := DeviceStatus.expired }) :=
      find?_hash_setKey hfind rfl
    have hrev2 : (({ r with status := DeviceStatus.expired }).status ==
        DeviceStatus.revoked) = false := by
      show (DeviceStatus.expired == DeviceStatus.revoked) = false
      decide
    have hexp2 : is_expired ({ r with status := DeviceStatus.expired }).expires_at
        now2 = true := by
      show is_expired r.expires_at now2 = true
      rw [he]
      show decide (now2 > e) = true
      simp only [decide_eq_true_eq]
      omega
    unfold validate_token load_json_file
    simp only [if_true]
    rw [hfind2]
    simp only [hrev2, Bool.false_eq_true, if_false, hexp2, if_true]
    have hidem : ({ ({ r with status := DeviceStatus.expired }) with
        status := DeviceStatus.expired }) =
        { r with status := DeviceStatus.expired } := rfl
    rw [hidem, setKey_setKey_same]


/-- Witness for `validate_expired_transition`: the record expiring at
`100` validated at times `200` and then `300`. -/
theorem validate_expired_transition_witness :
    (([("d1", c3Record)] : Store DeviceToken).find?
        (fun p => p.2.token_hash == "h1") = some ("d1", c3Record) ∧
     c3Record.status = DeviceStatus.approved ∧
     c3Record.expires_at = some 100 ∧ (100 : Int) < 200 ∧
     (200 : Int) ≤ 300) ∧
    (validate_token [("d1", c3Record)] true "h1" 200 =
      ((false, none, "Token has expired"),
        setKey [("d1", c3Record)] "d1"
          { c3Record with status := DeviceStatus.expired }) ∧
     lookupKey (setKey [("d1", c3Record)] "d1"
          { c3Record with status := DeviceStatus.expired }) "d1" =
       some { c3Record with status := DeviceStatus.expired } ∧
     validate_token (setKey [("d1", c3Record)] "d1"
          { c3Record with status := DeviceStatus.expired }) true "h1" 300 =
      ((false, none, "Token has expired"),
        setKey [("d1", c3Record)] "d1"
          { c3Record with status := DeviceStatus.expired })) :=
  ⟨⟨by decide, rfl, rfl, by decide, by decide⟩,
    validate_expired_transition [("d1", c3Record)] "h1" "d1" c3Record
      100 200 300 (by decide) rfl rfl (by decide) (by decide)⟩


/-- C4 (code bug): the revocation at time `50` succeeds and persists
status `revoked`; but `cleanup_expired_tokens` (run at every server
startup) at time `200` — past `expires_at = 100` — overwrites the revoked
status with `expired` because it marks every time-expired record
regardless of its current status, and a subsequent `validate` then fails
with "Token has expired" instead of the revoked failure the claim
requires. -/
theorem revoked_status_overwritten_by_cleanup :
    (revoke_device c4Start.approved true c4Start.revoked true "d1" 50
        "Manual revocation").1 = (true, "Device access revoked successfully") ∧
    lookupKey c4AfterRevoke.approved "d1" =
      some { c4Record with status := DeviceStatus.revoked } ∧
    (validate_token c4AfterRevoke.approved true "h1" 300).1 =
      (false, none, "Device access has been revoked") ∧
    lookupKey c4AfterCleanup.approved "d1" =
      some { c4Record with status := DeviceStatus.expired } ∧
    (validate_token c4AfterCleanup.approved true "h1" 300).1 =
      (false, none, "Token has expired") := by
  decide


/-- C5: `approve` fails with the not-found result whenever the device_id
is absent from the pending-requests document, and a successful approval
removes the pending record, so an immediate second `approve` on the same
id fails with not-found and changes nothing. -/
theorem approve_at_most_once (P : Store DeviceRequest) (A : Store DeviceToken)
    (id : String) (d1 d2 : Option Int) (n1 n2 : Int)
    (t1 g1 t2 g2 : String) :
    (containsKey P id = false →
      approve_device P true A true id d1 n1 t1 g1 =
        ((false, "Device request not found", none), P, A)) ∧
    ((approve_device P true A true id d1 n1 t1 g1).1.1 = true →
      approve_device (approve_device P true A true id d1 n1 t1 g1).2.1 true
          (approve_device P true A true id d1 n1 t1 g1).2.2 true
          id d2 n2 t2 g2 =
        ((false, "Device request not found", none),
          (approve_device P true A true id d1 n1 t1 g1).2.1,
          (approve_device P true A true id d1 n1 t1 g1).2.2)) := by
  constructor
  · intro hc
    have hlk : lookupKey P id = none :=
      lookupKey_eq_none_of_containsKey_eq_false hc
    simp [approve_device, load_json_file, hlk]
  · intro hok
    have hlk2 : lookupKey (approve_device P true A true id d1 n1 t1 g1).2.1
        id = none := by
      cases hlk : lookupKey P id with
      | none => simp [approve_device, load_json_file, hlk] at hok
      | some req =>
        have hP' : (approve_device P true A true id d1 n1 t1 g1).2.1 =
            eraseKey P id := by
          simp [approve_device, load_json_file, hlk]
        rw [hP']
        exact lookupKey_eq_none_of_containsKey_eq_false
          (containsKey_eraseKey_self P id)
    generalize hgP : (approve_device P true A true id d1 n1 t1 g1).2.1 = P'
      at hlk2 ⊢
    generalize hgA : (approve_device P true A true id d1 n1 t1 g1).2.2 = A'
    simp [approve_device, load_json_file, hlk2]


/-- Witness for `approve_at_most_once` at a concrete (empty) pending
document, discharging both hypotheses of the theorem there. -/
theorem approve_at_most_once_witness :
    (containsKey ([] : Store DeviceRequest) "d1" = false →
      approve_device [] true [] true "d1" none 0 "tok" "g1" =
        ((false, "Device request not found", none), [], [])) ∧
    ((approve_device [] true [] true "d1" none 0 "tok" "g1").1.1 = true →
      approve_device (approve_device [] true [] true "d1" none 0 "tok" "g1").2.1
          true (approve_device [] true [] true "d1" none 0 "tok" "g1").2.2 true
          "d1" none 1 "tok2" "g2" =
        ((false, "Device request not found", none),
          (approve_device [] true [] true "d1" none 0 "tok" "g1").2.1,
          (approve_device [] true [] true "d1" none 0 "tok" "g1").2.2)) :=
  approve_at_most_once [] [] "d1" none none 0 1 "tok" "g1" "tok2" "g2"


/-- C6 (amended): every DeviceToken created by `approve` with a
nonnegative `expiry_days` — including the default `30` when unspecified
and the clamp to `365` when the argument exceeds the maximum — satisfies
`expires_at` at or after `created_at`.  (The code does not clamp negative
values, so the restriction to nonnegative arguments is necessary.) -/
theorem approve_expires_ge_created (P : Store DeviceRequest)
    (A : Store DeviceToken) (id : String) (days : Option Int) (now : Int)
    (tok tokHash : String) (hd : 0 ≤ days.getD 30)
    (hok : (approve_device P true A true id days now tok tokHash).1.1 = true) :
    ∃ t : DeviceToken,
      lookupKey (approve_device P true A true id days now tok tokHash).2.2 id =
        some t ∧
      ∃ e : Int, t.expires_at = some e ∧ t.created_at ≤ e := by
  cases hlk : lookupKey P id with
  | none => simp [approve_device, load_json_file, hlk] at hok
  | some req =>
    simp only [approve_device, load_json_file, if_true, hlk]
    refine ⟨_, lookupKey_setKey_self _ _ _, _, rfl, ?_⟩
    by_cases hgt : (365 : Int) < days.getD 30
    · simp only [if_pos hgt]
      omega
    · simp only [if_neg hgt]
      omega


/-- C6 counterexample: `approve` with `expiry_days = -1` succeeds (no
lower clamp exists in the code) and creates a record whose `expires_at`
(`-86400`) is strictly earlier than its `created_at` (`0`), so the claim
fails for that integer argument. -/
theorem approve_negative_expiry_counterexample :
    (approve_device [("d1", c6Request)] true [] true "d1" (some (-1)) 0
        "tok" "g1").1.1 = true ∧
    (approve_device [("d1", c6Request)] true [] true "d1" (some (-1)) 0
        "tok" "g1").2.2 = [("d1", c6Token)] ∧
    c6Token.expires_at = some (-86400) ∧ c6Token.created_at = 0 ∧
    (-86400 : Int) < 0 := by
  decide


/-- Witness for `approve_expires_ge_created`: approving `c6Request` with
the unspecified (default) expiry at time `0`. -/
theorem approve_expires_ge_created_witness :
    (0 : Int) ≤ (Option.getD none 30) ∧
    (approve_device [("d1", c6Request)] true [] true "d1" none 0
        "tok" "g1").1.1 = true ∧
    (∃ t : DeviceToken,
      lookupKey (approve_device [("d1", c6Request)] true [] true "d1" none 0
          "tok" "g1").2.2 "d1" = some t ∧
      ∃ e : Int, t.expires_at = some e ∧ t.created_at ≤ e) :=
  ⟨by decide, by decide,
    approve_expires_ge_created [("d1", c6Request)] [] "d1" none 0 "tok" "g1"
      (by decide) (by decide)⟩


/-- C7 (amended): both rate limiters are per-key sliding windows: on each
check they keep exactly the recorded timestamps strictly newer than
`now - window` (so a timestamp lying exactly at `now - window` is also
discarded, where the claim said only "older than"), reject without
recording `now` when the kept count has reached `max_requests`, and
otherwise record `now` and accept; the engine limiter is the middleware
limiter with its minute window converted to seconds; and for one key with
`max_requests = 5` and a 900-second window, five calls inside the window
succeed, a sixth fails, and a call after the window has elapsed succeeds
again. -/
theorem rate_limiter_sliding_window (storage : Store (List Int))
    (key : String) (now : Int) (maxR : Nat) (window wm : Int) :
    (DeviceAuthManager.check_rate_limit storage key now maxR wm =
      SecurityMiddleware.check_rate_limit storage key now maxR (wm * 60)) ∧
    ((SecurityMiddleware.check_rate_limit storage key now maxR window).1 =
        true ↔
      (((lookupKey storage key).getD []).filter
          (fun t => t > now - window)).length < maxR) ∧
    ((SecurityMiddleware.check_rate_limit storage key now maxR window).2 =
      setKey storage key
        (if (((lookupKey storage key).getD []).filter
              (fun t => t > now - window)).length < maxR
         then ((lookupKey storage key).getD []).filter
            (fun t => t > now - window) ++ [now]
         else ((lookupKey storage key).getD []).filter
            (fun t => t > now - window))) ∧
    (let s1 := SecurityMiddleware.check_rate_limit [] "k" 0 5 900
     let s2 := SecurityMiddleware.check_rate_limit s1.2 "k" 1 5 900
     let s3 := SecurityMiddleware.check_rate_limit s2.2 "k" 2 5 900
     let s4 := SecurityMiddleware.check_rate_limit s3.2 "k" 3 5 900
     let s5 := SecurityMiddleware.check_rate_limit s4.2 "k" 4 5 900
     let s6 := SecurityMiddleware.check_rate_limit s5.2 "k" 5 5 900
     let s7 := SecurityMiddleware.check_rate_limit s6.2 "k" 905 5 900
     s1.1 = true ∧ s2.1 = true ∧ s3.1 = true ∧ s4.1 = true ∧
     s5.1 = true ∧ s6.1 = false ∧ s7.1 = true) := by
  refine ⟨rfl, ?_, ?_, by decide⟩
  · simp only [SecurityMiddleware.check_rate_limit]
    by_cases hle : maxR ≤ (((lookupKey storage key).getD []).filter
        (fun t => t > now - window)).length
    · rw [if_pos hle]
      simp only [Bool.false_eq_true, false_iff]
      omega
    · rw [if_neg hle]
      simp only [true_iff]
      omega
  · simp only [SecurityMiddleware.check_rate_limit]
    by_cases hle : maxR ≤ (((lookupKey storage key).getD []).filter
        (fun t => t > now - window)).length
    · rw [if_pos hle, if_neg (by omega)]
    · rw [if_neg hle, if_pos (by omega)]


/-- C7 counterexample: one recorded timestamp lying exactly at
`now - window` (storage `[0]`, checked at `now = 900` with a 900-second
window and `max_requests = 1`).  The claim says to discard only
timestamps older than now minus the window, which keeps that timestamp,
so the remaining count 1 reaches max_requests and demands rejection; the
code discards it and accepts. -/
theorem rate_limiter_boundary_counterexample :
    (SecurityMiddleware.check_rate_limit [("k", [0])] "k" 900 1 900).1 =
      true ∧
    (([0] : List Int).filter (fun t => ¬(t < 900 - 900))).length = 1 ∧
    ¬((1 : Nat) < 1) := by
  decide


/-- C9 (code bug): when the read of the pending-requests document fails
during `register`, `_load_json_file` swallows the error and returns an
empty mapping, so registration proceeds on it, reports success, and the
saved document contains only the new request — the previously stored
request `old-id` is silently dropped instead of the operation failing. -/
theorem register_read_failure_silent_loss :
    (request_device_registration [("old-id", c9OldRequest)] false []
        "new-dev" "ci" "10.0.0.9" "ua" "new-id" 100).1.1 = true ∧
    containsKey (request_device_registration [("old-id", c9OldRequest)] false
        [] "new-dev" "ci" "10.0.0.9" "ua" "new-id" 100).2.1 "old-id" =
      false ∧
    containsKey (request_device_registration [("old-id", c9OldRequest)] false
        [] "new-dev" "ci" "10.0.0.9" "ua" "new-id" 100).2.1 "new-id" =
      true := by
  decide


/-- C10 (amended): a stored DeviceToken whose `expires_at` is missing,
empty or unparseable never validates successfully; when its status is not
`revoked`, `validate` fails with the expired message and persists
status `expired` for that record (when the status is `revoked`, the
revoked check fires first and the record is left unchanged). -/
theorem validate_unparseable_expiry (A : Store DeviceToken)
    (h idv : String) (r : DeviceToken) (now : Int)
    (hfind : A.find? (fun p => p.2.token_hash == h) = some (idv, r))
    (he : r.expires_at = none) :
    (validate_token A true h now).1.1 = false ∧
    (r.status ≠ DeviceStatus.revoked →
      validate_token A true h now =
        ((false, none, "Token has expired"),
          setKey A idv { r with status := DeviceStatus.expired })) := by
  have hexp : is_expired r.expires_at now = true := by rw [he]; rfl
  by_cases hrev : r.status == DeviceStatus.revoked
  · constructor
    · unfold validate_token load_json_file
      simp only [if_true]
      rw [hfind]
      simp [hrev]
    · intro hne
      exact absurd (by simpa using hrev) hne
  · constructor
    · unfold validate_token load_json_file
      simp only [if_true]
      rw [hfind]
      simp [hrev, hexp]
    · intro _
      unfold validate_token load_json_file
      simp only [if_true]
      rw [hfind]
      simp [hrev, hexp]


/-- C10 counterexample: for a stored record with unparseable `expires_at`
but status `revoked`, `validate` fails with the revoked message — not the
expired message — and leaves the stored state unchanged (no
status=expired is persisted), contradicting the claim as stated for
"every" such DeviceToken. -/
theorem validate_unparseable_expiry_counterexample :
    validate_token [("d1", c10Record)] true "h1" 0 =
      ((false, none, "Device access has been revoked"),
        [("d1", c10Record)]) ∧
    ("Device access has been revoked" ≠ "Token has expired") ∧
    c10Record.status = DeviceStatus.revoked := by
  decide


/-- Witness for `validate_unparseable_expiry` on an approved record with
missing `expires_at`. -/
theorem validate_unparseable_expiry_witness :
    (([("d2", c10Record2)] : Store DeviceToken).find?
        (fun p => p.2.token_hash == "h2") = some ("d2", c10Record2) ∧
     c10Record2.expires_at = none) ∧
    ((validate_token [("d2", c10Record2)] true "h2" 0).1.1 = false ∧
     (c10Record2.status ≠ DeviceStatus.revoked →
       validate_token [("d2", c10Record2)] true "h2" 0 =
         ((false, none, "Token has expired"),
           setKey [("d2", c10Record2)] "d2"
             { c10Record2 with status := DeviceStatus.expired }))) :=
  ⟨⟨by decide, rfl⟩,
    validate_unparseable_expiry [("d2", c10Record2)] "h2" "d2" c10Record2 0
      (by decide) rfl⟩


theorem lookupKey_map {α β : Type} (l : Store α) (g : α → β) (k : String) :
    lookupKey (l.map (fun p => (p.1, g p.2))) k = (lookupKey l k).map g := by
  induction l with
  | nil => rfl
  | cons p t ih =>
    rw [List.map_cons, lookupKey_cons, lookupKey_cons]
    by_cases hp : p.1 == k <;> simp [hp, ih]


/-- Effect of one operation on a tracked record: keys stay distinct, the
id stays out of the pending document, and the record's `usage_count` and
`last_used_at` change exactly according to whether the operation was a
successful validation of that device. -/
theorem step_usage_last (s : AuthState) (op : Op) (id : String)
    (r : DeviceToken)
    (hnd : keysNodup s.approved)
    (hr : lookupKey s.approved id = some r)
    (hp : containsKey s.pending id = false)
    (hfresh : registerAvoids id op = true) :
    keysNodup (step s op).approved ∧
    containsKey (step s op).pending id = false ∧
    ∃ r1 : DeviceToken,
      lookupKey (step s op).approved id = some r1 ∧
      r1.usage_count = r.usage_count +
        (match validationTimeOf s id op with | some _ => 1 | none => 0) ∧
      r1.last_used_at =
        (match validationTimeOf s id op with
         | some t => some t | none => r.last_used_at) := by
  cases op with
  | register dn ci ip ua d now =>
    have hd : id ≠ d := by
      intro e
      simp [registerAvoids, e] at hfresh
    simp only [step]
    refine ⟨hnd, ?_, r, hr, by simp [validationTimeOf],
      by simp [validationTimeOf]⟩
    by_cases hb : (DeviceAuthManager.check_rate_limit s.rate ip now 5 15).1
    · simp only [request_device_registration, load_json_file, hb,
        Bool.not_true, Bool.false_eq_true, if_false, if_true]
      rw [containsKey_setKey_ne s.pending d id _ hd]
      exact hp
    · simp only [request_device_registration, load_json_file,
        Bool.eq_false_iff.mpr hb, Bool.not_false, if_true]
      exact hp
  | approve d days now tok hsh =>
    simp only [step]
    cases hlk : lookupKey s.pending d with
    | none =>
      have hres : approve_device s.pending true s.approved true d days now
          tok hsh = ((false, "Device request not found", none),
            s.pending, s.approved) := by
        simp [approve_device, load_json_file, hlk]
      rw [hres]
      exact ⟨hnd, hp, r, hr, by simp [validationTimeOf],
        by simp [validationTimeOf]⟩
    | some req =>
      have hdne : d ≠ id := by
        intro e
        rw [e] at hlk
        rw [lookupKey_eq_none_of_containsKey_eq_false hp] at hlk
        exact Option.noConfusion hlk
      have hP : (approve_device s.pending true s.approved true d days now
          tok hsh).2.1 = eraseKey s.pending d := by
        simp [approve_device, load_json_file, hlk]
      have hA : (approve_device s.pending true s.approved true d days now
          tok hsh).2.2 = setKey s.approved d
            { device_id := d, device_name := req.device_name,
              token_hash := hsh, ip_address := req.ip_address,
              created_at := now,
              expires_at := some (now +
                (if days.getD 30 > 365 then 365 else days.getD 30) * 86400),
              permissions := defaultPermissions } := by
        simp [approve_device, load_json_file, hlk]
      rw [hP, hA]
      refine ⟨keysNodup_setKey d _ hnd, ?_, r, ?_,
        by simp [validationTimeOf], by simp [validationTimeOf]⟩
      · rw [containsKey_eraseKey_ne s.pending d id (fun e => hdne e.symm)]
        exact hp
      · rw [lookupKey_setKey_ne s.approved d id _ (fun e => hdne e.symm)]
        exact hr
  | revoke d now reason =>
    simp only [step]
    cases hlk : lookupKey s.approved d with
    | none =>
      have hres : revoke_device s.approved true s.revoked true d now reason =
          ((false, "Device not found"), s.approved, s.revoked) := by
        simp [revoke_device, load_json_file, hlk]
      rw [hres]
      exact ⟨hnd, hp, r, hr, by simp [validationTimeOf],
        by simp [validationTimeOf]⟩
    | some tk =>
      have hres : (revoke_device s.approved true s.revoked true d now
          reason).2.1 = setKey s.approved d
            { tk with status := DeviceStatus.revoked } := by
        simp [revoke_device, load_json_file, hlk]
      rw [hres]
      refine ⟨keysNodup_setKey d _ hnd, hp, ?_⟩
      by_cases hdi : d = id
      · subst hdi
        rw [hr] at hlk
        obtain rfl : r = tk := Option.some_inj.mp hlk
        exact ⟨_, lookupKey_setKey_self _ _ _, by simp [validationTimeOf],
          by simp [validationTimeOf]⟩
      · refine ⟨r, ?_, by simp [validationTimeOf], by simp [validationTimeOf]⟩
        rw [lookupKey_setKey_ne s.approved d id _ (fun e => hdi e.symm)]
        exact hr
  | validate th now =>
    simp only [step]
    cases hfind : s.approved.find? (fun p => p.2.token_hash == th) with
    | none =>
      have hst : (validate_token s.approved true th now).2 = s.approved := by
        simp [validate_token, load_json_file, hfind]
      have hvt : validationTimeOf s id (.validate th now) = none := by
        simp [validationTimeOf, validate_token, load_json_file, hfind]
      rw [hst, hvt]
      exact ⟨hnd, hp, r, hr, by simp, rfl⟩
    | some q =>
      obtain ⟨d, info⟩ := q
      by_cases hrev : info.status == DeviceStatus.revoked
      · have hst : (validate_token s.approved true th now).2 = s.approved := by
          simp [validate_token, load_json_file, hfind, hrev]
        have hvt : validationTimeOf s id (.validate th now) = none := by
          simp [validationTimeOf, validate_token, load_json_file, hfind, hrev]
        rw [hst, hvt]
        exact ⟨hnd, hp, r, hr, by simp, rfl⟩
      · by_cases hexp : is_expired info.expires_at now
        · have hst : (validate_token s.approved true th now).2 =
              setKey s.approved d
                { info with status := DeviceStatus.expired } := by
            simp [validate_token, load_json_file, hfind, hrev, hexp]
          have hvt : validationTimeOf s id (.validate th now) = none := by
            simp [validationTimeOf, validate_token, load_json_file, hfind,
              hrev, hexp]
          rw [hst, hvt]
          refine ⟨keysNodup_setKey d _ hnd, hp, ?_⟩
          by_cases hdi : d = id
          · subst hdi
            have hmem : (d, info) ∈ s.approved :=
              List.mem_of_find?_eq_some hfind
            have hli : lookupKey s.approved d = some info :=
              lookupKey_of_mem_keysNodup hnd hmem
            rw [hr] at hli
            obtain rfl : r = info := Option.some_inj.mp hli
            exact ⟨_, lookupKey_setKey_self _ _ _, by simp, rfl⟩
          · refine ⟨r, ?_, by simp, rfl⟩
            rw [lookupKey_setKey_ne s.approved d id _ (fun e => hdi e.symm)]
            exact hr
        · have hst : (validate_token s.approved true th now).2 =
              setKey s.approved d
                { info with last_used_at := some now,
                            usage_count := info.usage_count + 1 } := by
            simp [validate_token, load_json_file, hfind, hrev, hexp]
          rw [hst]
          refine ⟨keysNodup_setKey d _ hnd, hp, ?_⟩
          by_cases hdi : d = id
          · have hvt : validationTimeOf s id (.validate th now) =
                some now := by
              simp [validationTimeOf, validate_token, load_json_file, hfind,
                hrev, hexp, hdi]
            subst hdi
            have hmem : (d, info) ∈ s.approved :=
              List.mem_of_find?_eq_some hfind
            have hli : lookupKey s.approved d = some info :=
              lookupKey_of_mem_keysNodup hnd hmem
            rw [hr] at hli
            obtain rfl : r = info := Option.some_inj.mp hli
            rw [hvt]
            exact ⟨_, lookupKey_setKey_self _ _ _, rfl, rfl⟩
          · have hvt : validationTimeOf s id (.validate th now) = none := by
              simp [validationTimeOf, validate_token, load_json_file, hfind,
                hrev, hexp, hdi]
            rw [hvt]
            refine ⟨r, ?_, by simp, rfl⟩
            rw [lookupKey_setKey_ne s.approved d id _ (fun e => hdi e.symm)]
            exact hr
  | cleanup now =>
    simp only [step]
    by_cases hany : s.approved.any (fun p => is_expired p.2.expires_at now)
    · have hst : cleanup_expired_tokens s.approved true now =
          s.approved.map (fun p => (p.1, markExpired now p.2)) := by
        simp only [cleanup_expired_tokens, load_json_file, if_true, hany]
        apply List.map_congr_left
        intro p _
        by_cases hc : is_expired p.2.expires_at now <;>
          simp [markExpired, hc]
      rw [hst]
      refine ⟨?_, hp, ?_⟩
      · unfold keysNodup at hnd ⊢
        rw [List.map_map]
        have hke : List.map (Prod.fst ∘ fun p => (p.1, markExpired now p.2))
            s.approved = List.map Prod.fst s.approved :=
          List.map_congr_left (fun p _ => rfl)
        rw [hke]
        exact hnd
      · refine ⟨markExpired now r, ?_, ?_, ?_⟩
        · rw [lookupKey_map s.approved (markExpired now) id, hr]
          rfl
        · by_cases hc : is_expired r.expires_at now <;>
            simp [markExpired, hc, validationTimeOf]
        · by_cases hc : is_expired r.expires_at now <;>
            simp [markExpired, hc, validationTimeOf]
    · have hst : cleanup_expired_tokens s.approved true now = s.approved := by
        simp [cleanup_expired_tokens, load_json_file, hany]
      rw [hst]
      exact ⟨hnd, hp, r, hr, by simp [validationTimeOf],
        by simp [validationTimeOf]⟩


/-- C8: each successful `validate` increments the matching record's
`usage_count` by exactly 1 and sets `last_used_at` to that validation's
time; across every sequence of engine operations (with fresh uuid ids for
registrations and the record's id not pending), the final `usage_count`
equals the initial one plus the number of successful validations of that
device — so it never decreases — and the final `last_used_at` equals the
time of the most recent successful validation, or keeps its initial value
(null for a freshly approved record) if there was none. -/
theorem usage_count_and_last_used (s : AuthState) (id : String)
    (r : DeviceToken) (ops : List Op)
    (hnd : keysNodup s.approved)
    (hr : lookupKey s.approved id = some r)
    (hp : containsKey s.pending id = false)
    (hfresh : ∀ op ∈ ops, registerAvoids id op = true) :
    ∃ r1 : DeviceToken,
      lookupKey (run s ops).approved id = some r1 ∧
      r1.usage_count = r.usage_count + successfulValidations s id ops ∧
      r1.last_used_at = lastValidationTime s id r.last_used_at ops := by
  induction ops generalizing s r with
  | nil =>
    exact ⟨r, hr, by simp [successfulValidations],
      by simp [lastValidationTime]⟩
  | cons op rest ih =>
    obtain ⟨hnd1, hp1, r1, hr1, hu1, hl1⟩ :=
      step_usage_last s op id r hnd hr hp
        (hfresh op (List.mem_cons_self op rest))
    obtain ⟨r2, hr2, hu2, hl2⟩ :=
      ih (step s op) r1 hnd1 hr1 hp1
        (fun o ho => hfresh o (List.mem_cons_of_mem op ho))
    refine ⟨r2, hr2, ?_, ?_⟩
    · rw [show successfulValidations s id (op :: rest) =
          (match validationTimeOf s id op with | some _ => 1 | none => 0) +
            successfulValidations (step s op) id rest from rfl]
      rw [hu2, hu1]
      exact Nat.add_assoc _ _ _
    · rw [show lastValidationTime s id r.last_used_at (op :: rest) =
          lastValidationTime (step s op) id
            (match validationTimeOf s id op with
             | some t => some t | none => r.last_used_at) rest from rfl]
      rw [hl2, hl1]


/-- Witness for `usage_count_and_last_used` on a concrete trace: after
two successful validations (times 10, 20), a revocation and a rejected
validation, the record's counters follow the trace measurements. -/
theorem usage_count_and_last_used_witness :
    (keysNodup c8Start.approved ∧
     lookupKey c8Start.approved "d1" = some c8Record ∧
     containsKey c8Start.pending "d1" = false ∧
     ∀ op ∈ c8Ops, registerAvoids "d1" op = true) ∧
    (∃ r1 : DeviceToken,
      lookupKey (run c8Start c8Ops).approved "d1" = some r1 ∧
      r1.usage_count = c8Record.usage_count +
        successfulValidations c8Start "d1" c8Ops ∧
      r1.last_used_at = lastValidationTime c8Start "d1"
        c8Record.last_used_at c8Ops) :=
  ⟨⟨by show (c8Start.approved.map Prod.fst).Nodup; decide, by decide,
      by decide, by decide⟩,
    usage_count_and_last_used c8Start "d1" c8Record c8Ops
      (by show (c8Start.approved.map Prod.fst).Nodup; decide)
      (by decide) (by decide) (by decide)⟩


end ProxmoxMCP
